import Mathlib

/-!
Shallow embedding of the GoodNews watcher (src/server.py) for checking the
natural-language specification against the code.

Conventions of the embedding:
* Python dict values read through `str(entry.get(k, default))` are modelled as
  `String`-valued association lists (`Entry`): every access in the source code
  wraps the value in `str(...)`, so only its string form is ever observed.
* External world reads (loaded configuration, loaded memory store, the text the
  search provider returns, wall-clock dates) are inputs of the cycle function.
* Calls with side effects (saving the store, sending an email, querying a site)
  are recorded in the cycle's result so theorems can count them.
-/

namespace GoodNews

/-- A discovered item: the JSON object returned by the provider for one
publication, observed through `str(entry.get(key, default))`. -/
abbrev Entry := List (String × String)

/-- `entry.get(k)` on a Python dict, modelled by first-match lookup
(dict keys are unique, so first-match agrees with dict lookup). -/
def Entry.lookup (e : Entry) (k : String) : Option String :=
  (e.find? (fun p => p.1 = k)).map (fun p => p.2)

/-- `str(entry.get(k, d))` from the source (values modelled post-`str`). -/
def Entry.getD (e : Entry) (k d : String) : String :=
  (Entry.lookup e k).getD d

/-- `d[k] = v` on a Python dict: overwrite in place if the key exists,
else append (Python dicts preserve insertion order). -/
def dictUpsert {α : Type} (d : List (String × α)) (k : String) (v : α) :
    List (String × α) :=
  if d.any (fun p => p.1 = k) then
    d.map (fun p => if p.1 = k then (k, v) else p)
  else d ++ [(k, v)]

/-- `d.update(n)` on Python dicts (src/server.py line 526). -/
def dictUpdate {α : Type} (d : List (String × α)) (n : List (String × α)) :
    List (String × α) :=
  n.foldl (fun acc p => dictUpsert acc p.1 p.2) d

/-- Key list of a Python dict. -/
def dictKeys {α : Type} (d : List (String × α)) : List String :=
  d.map (fun p => p.1)

/-- `s.add(x)` on a Python set modelled as a duplicate-free list in insertion
order (Python set iteration order is unspecified; insertion order is one
admissible linearization, and all claims are membership-level). -/
def addToSet (l : List String) (x : String) : List String :=
  if x ∈ l then l else l ++ [x]

/-- `set(l)` for a Python list: deduplicate keeping first occurrences. -/
def toSet (l : List String) : List String :=
  l.foldl addToSet []

/-- `c * n` string repetition (`"=" * 50` in the source). -/
def charRep (c : Char) (n : Nat) : String :=
  String.mk (List.replicate n c)

/-- Python `"\n".join(lines)` (src/server.py line 519). -/
def joinLines : List String → String
  | [] => ""
  | [x] => x
  | x :: y :: xs => x ++ "\n" ++ joinLines (y :: xs)

/-- Python `sorted(new_urls)` (src/server.py line 531): insertion sort by the
lexicographic string order. The cycle's new URLs are pairwise distinct, so
stability is irrelevant. -/
def insertSorted (x : String) : List String → List String
  | [] => [x]
  | y :: ys => if x ≤ y then x :: y :: ys else y :: insertSorted x ys

/-- `sorted` on a list of strings. -/
def sortStrings (l : List String) : List String :=
  l.foldr insertSorted []

/-- One entry of the persisted `reports` history
(src/server.py lines 529-533). -/
structure ReportEntry where
  timestamp : String
  new_urls : List String
  report : String
deriving DecidableEq

/-- The Memory Store: `seen_urls`, `details`, `reports`
(src/server.py lines 420-421, 524-536). -/
structure Memory where
  seen_urls : List String
  details : List (String × Entry)
  reports : List ReportEntry
deriving DecidableEq

/-- Modelled from the spec: the pydantic `SourceConfig` class is absent from
src/; §3 WatchConfig is a list of keyword strings and a list of site URLs.
Fields are optional because the source applies `or []` to each
(src/server.py lines 415-416). -/
structure SourceConfig where
  keywords : Option (List String)
  veille_par_url : Option (List String)
deriving DecidableEq

/-- Modelled from the spec: `convert_details_to_html` is absent from src/;
§6 requires an HTML (`isHtml`) message, and src/server.py lines 540-541 pass
it the details mapping, so it is modelled as an HTML table with one row per
`(url, item)` pair of the details map. -/
def convert_details_to_html (details : List (String × Entry)) : String :=
  "<table>"
    ++ String.join (details.map (fun p =>
        "<tr><td>" ++ p.1 ++ "</td><td>"
          ++ String.join (p.2.map (fun q => q.1 ++ ": " ++ q.2 ++ "; "))
          ++ "</td></tr>"))
    ++ "</table>"

/-- Modelled from the spec: `normalize_url` is absent from src/; the glossary
defines a normalized URL as one with tracking parameters and fragments
stripped (§8's example maps `https://example.org/a?utm=1` to
`https://example.org/a`), so the model drops everything from the first `?` or
`#`. Host-case canonicalization is omitted. Cycle-level theorems quantify over
an arbitrary normalizer; this concrete one instantiates witnesses. -/
def normalize_url (u : String) : String :=
  String.mk ((u.data.takeWhile (fun c => c ≠ '#')).takeWhile (fun c => c ≠ '?'))

/-- Environment of one watch cycle: everything `perform_watch_task` reads from
the outside world.
* `lockFileExists` records whether `LOCK_FILE` exists when the task starts
  (a cycle in progress); the source body never consults it — the `finally`
  block only deletes the file (src/server.py lines 552-558).
* `config` is the outcome of `safe_load_json` + `SourceConfig(**...)`
  (lines 409-414); `none` models the caught validation failure.
* `memory` is the store returned by `safe_load_memory` (line 420).
* `discover site keywords` is the outcome of
  `watch_site_for_keywords(site, keywords)` (line 431); `none` models a
  raised exception.
* `llmReportText` is `result.get("text", "")` of the report-drafting call
  (lines 475-476).
* `today` is `datetime.datetime.now().strftime("%d/%m/%Y")` (line 487);
  `utcNow` is `datetime.datetime.utcnow().isoformat()` (line 530). -/
structure CycleEnv where
  lockFileExists : Bool
  config : Option SourceConfig
  memory : Memory
  discover : String → List String → Option (List Entry)
  llmReportText : String
  today : String
  utcNow : String

/-- Accumulator of the dedup loop (src/server.py lines 421-424):
`seen_urls_set`, `new_urls`, `new_details`, `all_results`. -/
structure DedupState where
  seen : List String
  newUrls : List String
  newDetails : List (String × Entry)
  allResults : List Entry
deriving DecidableEq

/-- `link = normalize_url(str(entry.get("Lien", "")))`
(src/server.py line 437). -/
def entryLink (normalize : String → String) (e : Entry) : String :=
  normalize (Entry.getD e "Lien" "")

/-- Body of the inner dedup loop (src/server.py lines 435-446): normalize the
entry's `Lien`, skip empty or already-seen links, otherwise accept the entry
into all four accumulators. -/
def processEntry (normalize : String → String) (st : DedupState) (e : Entry) :
    DedupState :=
  let link := entryLink normalize e
  if link = "" then st
  else if link ∈ st.seen then st
  else
    { seen := addToSet st.seen link
      newUrls := addToSet st.newUrls link
      newDetails := dictUpsert st.newDetails link e
      allResults := st.allResults ++ [e] }

/-- One iteration of the site loop (src/server.py lines 426-446): skip empty
sites, call discovery with the failure caught as an empty result
(`except ... site_results = []`), then fold the dedup loop over the entries. -/
def processSite (normalize : String → String)
    (discover : String → List String → Option (List Entry))
    (keywords : List String) (st : DedupState) (site : String) : DedupState :=
  if site = "" then st
  else ((discover site keywords).getD []).foldl (processEntry normalize) st

/-- The whole discovery/dedup phase over the configured sites. -/
def runDedup (normalize : String → String)
    (discover : String → List String → Option (List Entry))
    (keywords : List String) (sites : List String) (st : DedupState) :
    DedupState :=
  sites.foldl (processSite normalize discover keywords) st

/-- Lines of one item of the fallback report after the `ACTUALITÉ #i` header
(src/server.py lines 494-504). -/
def itemBody (e : Entry) : List String :=
  [charRep '-' 30,
   "SOURCE: " ++ Entry.getD e "Source" "Non spécifiée",
   "DATE: " ++ Entry.getD e "Date de Publication" "Non spécifiée",
   "RÉSUMÉ: " ++ Entry.getD e "Contexte et Résumé de la publication" "Non disponible",
   "IMPLICATIONS POUR UM6P: " ++ Entry.getD e "Implications et Impacts sur UM6P" "Non analysées",
   "RECOMMANDATIONS: " ++ Entry.getD e "Recommandations Stratégiques pour UM6P" "Non disponibles",
   "LIEN: " ++ Entry.getD e "Lien" "",
   "\n" ++ charRep '-' 50 ++ "\n"]

/-- `for i, entry in enumerate(all_results, 1)` of the fallback report
(src/server.py line 493). -/
def itemsLines (i : Nat) : List Entry → List String
  | [] => []
  | e :: es => ("ACTUALITÉ #" ++ toString i) :: itemBody e ++ itemsLines (i + 1) es

/-- All lines of the manual fallback report (src/server.py lines 488-517). -/
def fallbackLines (today : String) (results : List Entry) : List String :=
  ["RAPPORT DE VEILLE STRATÉGIQUE - " ++ today, charRep '=' 50, "\n"]
    ++ itemsLines 1 results
    ++ ["\nSYNTHÈSE GLOBALE", charRep '=' 30,
        "Ce rapport contient " ++ toString results.length
          ++ " actualités pertinentes relatives aux mots-clés suivis.",
        "Veuillez analyser les implications et recommandations pour chaque élément.",
        "\nRECOMMANDATIONS PRIORITAIRES", charRep '=' 30,
        "1. Examiner en détail les actualités signalées et valider leur pertinence.",
        "2. Partager les informations importantes avec les équipes concernées.",
        "3. Planifier une réunion de suivi pour discuter des actions à entreprendre."]

/-- The manual fallback report text (`"\n".join(lines)`,
src/server.py line 519). -/
def fallbackReport (today : String) (results : List Entry) : String :=
  joinLines (fallbackLines today results)

/-- Report selection (src/server.py lines 448-519): empty when there are no
results; otherwise the primary LLM text, or the manual fallback when the
primary text is empty. -/
def chooseReport (llm today : String) (allResults : List Entry) : String :=
  if allResults = [] then ""
  else if llm = "" then fallbackReport today allResults
  else llm

/-- Observable outcome of one watch cycle.
* `memory` is the store after the cycle (the saved store, or the loaded one
  unchanged when nothing was saved);
* `saveCount` counts calls to `atomic_save_memory`;
* `emails` lists `(subject, body)` pairs passed to `send_report_via_email`;
* `discoveredSites` lists the sites for which discovery was invoked;
* `lockFileAfter` is whether `LOCK_FILE` still exists after the `finally`
  block. -/
structure CycleResult where
  memory : Memory
  saveCount : Nat
  newUrls : List String
  allResults : List Entry
  reportText : String
  emails : List (String × String)
  discoveredSites : List String
  lockFileAfter : Bool
deriving DecidableEq

/-- `keywords = config.keywords or []` (src/server.py line 415). -/
def cycleKeywords (cfg : SourceConfig) : List String :=
  cfg.keywords.getD []

/-- `urls_to_watch = [normalize_url(u) for u in (config.veille_par_url or [])
if u]` (src/server.py lines 416-418). -/
def cycleSites (normalize : String → String) (cfg : SourceConfig) :
    List String :=
  ((cfg.veille_par_url.getD []).filter (fun u => u ≠ "")).map normalize

/-- The discovery/dedup phase of one cycle starting from the loaded
`seen_urls` list (src/server.py lines 420-446). -/
def cycleDedup (normalize : String → String)
    (discover : String → List String → Option (List Entry))
    (cfg : SourceConfig) (seen : List String) : DedupState :=
  runDedup normalize discover (cycleKeywords cfg) (cycleSites normalize cfg)
    ⟨toSet seen, [], [], []⟩

/-- `perform_watch_task` (src/server.py lines 398-558), parameterized by the
URL normalizer (`normalize_url` is absent from src/) and the cycle
environment. Mirrors the source: configuration failure aborts; sites are
normalized and filtered; per-site discovery failures become empty results;
the dedup loop accumulates fresh links; the report is the primary LLM text or
the manual fallback; when `new_urls` is non-empty the store is updated, a
ReportEntry is appended when the report text is non-empty, one email carrying
the HTML rendering of the details map is sent, and the store is saved once.
The `finally` block removes the lock file on every path. -/
def perform_watch_task (normalize : String → String) (env : CycleEnv) :
    CycleResult :=
  match env.config with
  | none =>
      { memory := env.memory, saveCount := 0, newUrls := [], allResults := []
        reportText := "", emails := [], discoveredSites := []
        lockFileAfter := false }
  | some cfg =>
      let st := cycleDedup normalize env.discover cfg env.memory.seen_urls
      let reportText := chooseReport env.llmReportText env.today st.allResults
      let visited := (cycleSites normalize cfg).filter (fun s => s ≠ "")
      if st.newUrls = [] then
        { memory := env.memory, saveCount := 0, newUrls := st.newUrls
          allResults := st.allResults, reportText := reportText, emails := []
          discoveredSites := visited, lockFileAfter := false }
      else
        let details' := dictUpdate env.memory.details st.newDetails
        let reports' :=
          if reportText = "" then env.memory.reports
          else env.memory.reports
            ++ [⟨env.utcNow ++ "Z", sortStrings st.newUrls, reportText⟩]
        { memory := ⟨st.seen, details', reports'⟩
          saveCount := 1
          newUrls := st.newUrls
          allResults := st.allResults
          reportText := reportText
          emails := [("Rapport de veille - " ++ toString st.newUrls.length
              ++ " nouvelles actualités", convert_details_to_html details')]
          discoveredSites := visited
          lockFileAfter := false }

/-! ### Search client: `call_search` (src/server.py lines 168-229) -/

/-- One inline citation extracted from a provider annotation
(src/server.py lines 213-220); `start`/`stop` model
`start_index`/`end_index`. -/
structure Citation where
  url : String
  title : String
  start : Nat
  stop : Nat
deriving DecidableEq

/-- One provider annotation (src/server.py lines 210-220): `type` is
`getattr(ann, "type", "")`; `url_citation = none` models a missing
`url_citation` attribute (`hasattr` false). -/
structure Ann where
  type : String
  url_citation : Option Citation
deriving DecidableEq

/-- The raw provider response message (src/server.py lines 207-210):
`content = none` models `msg.content` being `None`. -/
structure ProviderResp where
  content : Option String
  anns : List Ann
deriving DecidableEq

/-- Result of `call_search`: text plus citation list
(src/server.py lines 178-181, 221, 229). -/
structure SearchResult where
  text : String
  citations : List Citation
deriving DecidableEq

/-- Python `str.strip()`: drop leading and trailing whitespace. -/
def pyStrip (s : String) : String :=
  String.mk
    (((s.data.dropWhile Char.isWhitespace).reverse.dropWhile
      Char.isWhitespace).reverse)

/-- The success path of `call_search` (src/server.py lines 207-221):
`content or ""`, keep annotations of type `url_citation` carrying a
`url_citation` attribute, strip the text. -/
def respToResult (r : ProviderResp) : SearchResult :=
  { text := pyStrip (r.content.getD "")
    citations := r.anns.filterMap (fun a =>
      if a.type = "url_citation" then a.url_citation else none) }

/-- The retry loop of `call_search` (src/server.py lines 185-227), written on
the remaining attempt budget. `provider attempt` is the outcome of the
provider call at zero-based `attempt`; `none` models a raised exception.
Returns the result, the number of attempts performed, and the list of
back-off sleeps (`initial_delay * 2 ** attempt`, slept only when another
attempt remains). -/
def call_search_go (provider : Nat → Option ProviderResp)
    (initialDelay attempt : Nat) : Nat → SearchResult × Nat × List Nat
  | 0 => (⟨"", []⟩, 0, [])
  | remaining + 1 =>
      match provider attempt with
      | some r => (respToResult r, 1, [])
      | none =>
          if remaining = 0 then (⟨"", []⟩, 1, [])
          else
            let rest := call_search_go provider initialDelay (attempt + 1) remaining
            (rest.1, rest.2.1 + 1, initialDelay * 2 ^ attempt :: rest.2.2)

/-- `call_search(prompt, max_retries, initial_delay, ...)`
(src/server.py lines 168-229): run up to `maxRetries` provider attempts with
exponential back-off and return the empty result after exhaustion, never
propagating an exception (the model is a total function). -/
def call_search (provider : Nat → Option ProviderResp)
    (maxRetries initialDelay : Nat) : SearchResult × Nat × List Nat :=
  call_search_go provider initialDelay 0 maxRetries

/-! ### Fetch client: `HTTPClient.get` (src/server.py lines 67-100) -/

/-- An HTTP response as observed by `HTTPClient.get`: status code and decoded
body text (the encoding fallback of lines 95-96 happens inside the transport
model and only affects the text value). -/
structure HttpResp where
  status : Nat
  text : String
deriving DecidableEq

/-- The retryable statuses configured in `Retry(status_forcelist=...)`
(src/server.py line 81). -/
def retryStatuses : List Nat := [429, 500, 502, 503, 504]

/-- Modelled from the spec: the retry behaviour configured on the session
(src/server.py lines 78-86, `Retry(total=3, backoff_factor=1,
status_forcelist=[429,500,502,503,504])`) executes inside the `requests` /
`urllib3` libraries; §4.1 specifies retries on those transient classes up to
the budget. `attempts k` is the outcome of the k-th wire attempt (`none` = a
connection error); a response with a retryable status or a connection error
consumes one retry, and exhausting the budget raises (modelled as `none`,
matching `raise_on_status` / `MaxRetryError`). Recursion is on the remaining
retry budget. -/
def session_get_go (attempts : Nat → Option HttpResp) :
    Nat → Nat → Option HttpResp
  | k, 0 =>
      match attempts k with
      | some r => if r.status ∈ retryStatuses then none else some r
      | none => none
  | k, budget + 1 =>
      match attempts k with
      | some r =>
          if r.status ∈ retryStatuses then session_get_go attempts (k + 1) budget
          else some r
      | none => session_get_go attempts (k + 1) budget

/-- `self.session.get(url, ...)` with the adapter of src/server.py lines
78-86: first attempt plus up to 3 retries. -/
def session_get (attempts : Nat → Option HttpResp) : Option HttpResp :=
  session_get_go attempts 0 3

/-- `HTTPClient.get` (src/server.py lines 88-100): any exception from the
session yields `None`; a status `>= 400` yields `None`; otherwise the body
text is returned. The model is a total function — no path raises. -/
def HTTPClient.get (attempts : Nat → Option HttpResp) : Option String :=
  match session_get attempts with
  | none => none
  | some r => if 400 ≤ r.status then none else some r.text

/-! ### Keyword-discovery parsers (src/server.py lines 266-327 and 330-392) -/

/-- Model of a Python JSON value as produced by `json.loads`. -/
inductive PyJson where
  | null : PyJson
  | bool : Bool → PyJson
  | num : Int → PyJson
  | str : String → PyJson
  | arr : List PyJson → PyJson
  | obj : List (String × PyJson) → PyJson

mutual
/-- Python `repr` of a JSON-shaped value (used by `str` on non-string
values); quote escaping inside nested strings is not modelled, which no
theorem depends on. -/
def pyRepr : PyJson → String
  | .null => "None"
  | .bool true => "True"
  | .bool false => "False"
  | .num n => toString n
  | .str s => "'" ++ s ++ "'"
  | .arr l => "[" ++ joinComma (pyReprList l) ++ "]"
  | .obj l => "\x7b" ++ joinComma (pyReprObj l) ++ "\x7d"

def pyReprList : List PyJson → List String
  | [] => []
  | x :: xs => pyRepr x :: pyReprList xs

def pyReprObj : List (String × PyJson) → List String
  | [] => []
  | p :: xs => ("'" ++ p.1 ++ "': " ++ pyRepr p.2) :: pyReprObj xs

def joinComma : List String → String
  | [] => ""
  | [x] => x
  | x :: y :: xs => x ++ ", " ++ joinComma (y :: xs)
end

/-- Python `str` applied to a JSON-shaped value. -/
def pyStr : PyJson → String
  | .str s => s
  | v => pyRepr v

/-- `item.get(k, d)` on a parsed JSON object. -/
def jsonGetD (d : List (String × PyJson)) (k : String) (v : PyJson) : PyJson :=
  (((d.find? (fun p => p.1 = k)).map (fun p => p.2)).getD v)

/-- One parsed search item of `perform_search`
(src/server.py lines 294-300). -/
structure SearchItem where
  title : String
  url : String
  snippet : String
deriving DecidableEq

/-- The item mapping of `perform_search` (src/server.py lines 292-303):
take the first `max_results` items; a non-object item makes `item.get`
raise, which the inner `except ... continue` skips. -/
def parseArrItems (maxResults : Nat) (data : List PyJson) : List SearchItem :=
  (data.take maxResults).filterMap (fun item =>
    match item with
    | .obj d => some
        { title := pyStr (jsonGetD d "title" (.str ""))
          url := pyStr (jsonGetD d "url" (.str ""))
          snippet := pyStr (jsonGetD d "snippet" (.str "")) }
    | _ => none)

/-- The item filter of `watch_site` (src/server.py lines 372-375): keep the
items that are objects. -/
def dictsOnly (data : List PyJson) : List (List (String × PyJson)) :=
  data.filterMap (fun item =>
    match item with
    | .obj d => some d
    | _ => none)

/-- Python `\s` on the ASCII range (the source texts are provider output;
non-ASCII Unicode whitespace is not modelled). -/
def isPySpace (c : Char) : Bool :=
  c = ' ' || c = '\t' || c = '\n' || c = '\r' || c = '\x0b' || c = '\x0c'

/-- Does `l` start with `\x7d \s* \]`? Returns the number of characters the
tail of the regex consumes. Deterministic because `\s*` is followed by a
non-whitespace literal. -/
def reTailTry : List Char → Option Nat
  | c :: r =>
      if c = '\x7d' then
        let ws := (r.takeWhile isPySpace).length
        match r.drop ws with
        | ']' :: _ => some (1 + ws + 1)
        | _ => none
      else none
  | [] => none

/-- All offsets `t` (ascending) at which `\x7d \s* \]` matches in `l`, with
the length consumed there. -/
def reTailMatches : List Char → List (Nat × Nat)
  | [] => []
  | c :: r =>
      let rest := (reTailMatches r).map (fun p => (p.1 + 1, p.2))
      match reTailTry (c :: r) with
      | some n => (0, n) :: rest
      | none => rest

/-- Match `\[\s*\x7b.*\x7d\s*\]` (with `re.S`) anchored at the start of `l`:
`\s*` before `\x7b` is forced to the whitespace run; `.*?` picks the first
tail match, `.*` (greedy) the last. Returns the matched substring
(`match.group(0)`). -/
def reMatchAt (greedy : Bool) (l : List Char) : Option (List Char) :=
  match l with
  | '[' :: r =>
      let ws := r.takeWhile isPySpace
      match r.drop ws.length with
      | c :: body =>
          if c = '\x7b' then
            let ms := reTailMatches body
            match (if greedy then ms.getLast? else ms.head?) with
            | some (t, n) => some ('[' :: (ws ++ '\x7b' :: body.take (t + n)))
            | none => none
          else none
      | [] => none
  | _ => none

/-- Leftmost search for the array pattern over a character list
(`re.search` semantics: earliest start wins). -/
def reSearchList (greedy : Bool) : List Char → Option (List Char)
  | [] => none
  | c :: r =>
      match reMatchAt greedy (c :: r) with
      | some m => some m
      | none => reSearchList greedy r

/-- `re.search(r"\[\s*\{.*?\}\s*\]", text, re.S)` (non-greedy,
src/server.py line 308) and its greedy variant
`re.search(r"\[\s*\{.*\}\s*\]", text, re.S)` (line 380), returning
`match.group(0)`. -/
def reSearchArr (greedy : Bool) (s : String) : Option String :=
  (reSearchList greedy s.data).map (fun l => String.mk l)

/-- `try: data = json.loads(...); if isinstance(data, list): return f(data)`
falling through to `x` when the parse raises (`none`) or the value is not a
list — the shared shape of both parse stages
(src/server.py lines 288-305, 307-326, 368-377, 379-391). -/
def arrOrElse {α : Type} (x : α) (f : List PyJson → α) : Option PyJson → α
  | some (.arr data) => f data
  | _ => x

/-- The parse pipeline of `perform_search` applied to the provider text
(src/server.py lines 284-327), with `json.loads` abstracted as `loads`
(`none` models a raised `JSONDecodeError`). Empty text, a non-array parse, a
failed regex extraction, or a failed second parse all yield the empty list;
no path raises (the model is a total function). -/
def perform_search_of_text (loads : String → Option PyJson) (maxResults : Nat)
    (text : String) : List SearchItem :=
  if text = "" then []
  else
    arrOrElse
      (((reSearchArr false text).map
          (fun sub => arrOrElse [] (parseArrItems maxResults) (loads sub))).getD [])
      (parseArrItems maxResults) (loads text)

/-- The parse pipeline of `watch_site` applied to the provider text
(src/server.py lines 363-392), with `json.loads` abstracted; the fallback
regex here is greedy. -/
def watch_site_of_text (loads : String → Option PyJson) (text : String) :
    List (List (String × PyJson)) :=
  if text = "" then []
  else
    arrOrElse
      (((reSearchArr true text).map
          (fun sub => arrOrElse [] dictsOnly (loads sub))).getD [])
      dictsOnly (loads text)

/-! ### Helper lemmas -/

lemma call_search_go_all_fail (provider : Nat → Option ProviderResp)
    (d : Nat) :
    ∀ (r a : Nat), (∀ i, a ≤ i → i < a + r → provider i = none) →
      call_search_go provider d a r =
        (⟨"", []⟩, r, (List.range (r - 1)).map (fun i => d * 2 ^ (a + i))) := by
  intro r
  induction r with
  | zero => intro a _; rfl
  | succ r ih =>
      intro a h
      have ha : provider a = none := h a (Nat.le_refl a) (by omega)
      cases r with
      | zero => simp [call_search_go, ha]
      | succ r' =>
          have hrest := ih (a + 1) (fun i h1 h2 => h i (by omega) (by omega))
          have step : call_search_go provider d a (r' + 1 + 1)
              = ((call_search_go provider d (a + 1) (r' + 1)).1,
                 (call_search_go provider d (a + 1) (r' + 1)).2.1 + 1,
                 d * 2 ^ a :: (call_search_go provider d (a + 1) (r' + 1)).2.2) := by
            conv_lhs => rw [call_search_go]
            simp [ha]
          rw [step, hrest]
          have hfun : (fun i => d * 2 ^ (a + 1 + i)) = fun i => d * 2 ^ (a + (i + 1)) :=
            funext fun i => by rw [Nat.add_assoc, Nat.add_comm 1 i]
          simp [List.range_succ_eq_map, List.map_map, Function.comp_def, hfun]

lemma arrOrElse_nonarr {α : Type} (x : α) (f : List PyJson → α)
    (o : Option PyJson) (hno : ∀ d, o ≠ some (.arr d)) : arrOrElse x f o = x := by
  cases o with
  | none => rfl
  | some v =>
      cases v with
      | arr d => exact absurd rfl (hno d)
      | null => rfl
      | bool b => rfl
      | num m => rfl
      | str s => rfl
      | obj l => rfl

lemma session_get_go_all_retryable (attempts : Nat → Option HttpResp)
    (h : ∀ i r, attempts i = some r → r.status ∈ retryStatuses) :
    ∀ (budget k : Nat), session_get_go attempts k budget = none := by
  intro budget
  induction budget with
  | zero =>
      intro k
      simp only [session_get_go]
      cases ha : attempts k with
      | none => rfl
      | some r => simp [h k r ha]
  | succ b ih =>
      intro k
      simp only [session_get_go]
      cases ha : attempts k with
      | none => exact ih (k + 1)
      | some r => simp [h k r ha, ih (k + 1)]

/-! ### Lemmas about the dedup loop -/

lemma mem_addToSet {l : List String} {x y : String} :
    y ∈ addToSet l x ↔ y ∈ l ∨ y = x := by
  unfold addToSet
  split
  · rename_i hx
    constructor
    · exact Or.inl
    · rintro (h | rfl)
      · exact h
      · exact hx
  · simp

lemma mem_foldl_addToSet {l acc : List String} {x : String} :
    x ∈ l.foldl addToSet acc ↔ x ∈ acc ∨ x ∈ l := by
  induction l generalizing acc with
  | nil => simp
  | cons a l ih =>
      simp only [List.foldl_cons, ih, mem_addToSet, List.mem_cons]
      tauto

lemma mem_toSet {l : List String} {x : String} : x ∈ toSet l ↔ x ∈ l := by
  simp [toSet, mem_foldl_addToSet]

lemma mem_dictKeys_dictUpsert {α : Type} {d : List (String × α)} {k a : String}
    {v : α} :
    a ∈ dictKeys (dictUpsert d k v) → a ∈ dictKeys d ∨ a = k := by
  unfold dictUpsert dictKeys
  split
  · intro h
    rcases List.mem_map.mp h with ⟨p, hp, hpa⟩
    rcases List.mem_map.mp hp with ⟨q, hq, hqp⟩
    by_cases hk : q.1 = k
    · right
      rw [← hpa, ← hqp]
      simp [hk]
    · left
      rw [← hpa, ← hqp]
      simp only [if_neg hk]
      exact List.mem_map_of_mem _ hq
  · intro h
    simp only [List.map_append, List.mem_append] at h
    rcases h with h | h
    · exact Or.inl h
    · simp at h
      exact Or.inr h

lemma mem_dictKeys_dictUpdate {α : Type} {d n : List (String × α)} {a : String} :
    a ∈ dictKeys (dictUpdate d n) → a ∈ dictKeys d ∨ a ∈ dictKeys n := by
  induction n generalizing d with
  | nil => exact Or.inl
  | cons p n ih =>
      intro h
      rcases ih h with h' | h'
      · rcases mem_dictKeys_dictUpsert h' with h'' | h''
        · exact Or.inl h''
        · exact Or.inr (by simp [dictKeys, h''])
      · exact Or.inr (by simp [dictKeys] at h' ⊢; exact Or.inr h')

lemma processEntry_skip {normalize : String → String} {st : DedupState}
    {e : Entry} (h : entryLink normalize e = "" ∨ entryLink normalize e ∈ st.seen) :
    processEntry normalize st e = st := by
  unfold processEntry
  rcases h with h | h
  · simp [h]
  · by_cases h0 : entryLink normalize e = "" <;> simp [h0, h]

lemma processEntry_add {normalize : String → String} {st : DedupState}
    {e : Entry} (h1 : entryLink normalize e ≠ "")
    (h2 : entryLink normalize e ∉ st.seen) :
    processEntry normalize st e =
      ⟨st.seen ++ [entryLink normalize e], addToSet st.newUrls (entryLink normalize e),
       dictUpsert st.newDetails (entryLink normalize e) e, st.allResults ++ [e]⟩ := by
  unfold processEntry
  simp [h1, h2, addToSet]

lemma seen_subset_processEntry {normalize : String → String} {st : DedupState}
    {e : Entry} : st.seen ⊆ (processEntry normalize st e).seen := by
  by_cases hl : entryLink normalize e = ""
  · rw [processEntry_skip (Or.inl hl)]
    exact fun _ h => h
  · by_cases hs : entryLink normalize e ∈ st.seen
    · rw [processEntry_skip (Or.inr hs)]
      exact fun _ h => h
    · rw [processEntry_add hl hs]
      intro x hx
      simp [hx]

lemma seen_subset_foldl {normalize : String → String} {es : List Entry}
    {st : DedupState} :
    st.seen ⊆ (es.foldl (processEntry normalize) st).seen := by
  induction es generalizing st with
  | nil => exact fun _ h => h
  | cons e es ih =>
      intro x hx
      exact ih (seen_subset_processEntry hx)

lemma mem_seen_foldl_of_mem {normalize : String → String} {es : List Entry}
    {st : DedupState} {e : Entry} (he : e ∈ es)
    (hl : entryLink normalize e ≠ "") :
    entryLink normalize e ∈ (es.foldl (processEntry normalize) st).seen := by
  induction es generalizing st with
  | nil => cases he
  | cons a es ih =>
      rcases List.mem_cons.mp he with rfl | he'
      · simp only [List.foldl_cons]
        refine seen_subset_foldl ?_
        by_cases hs : entryLink normalize e ∈ st.seen
        · rw [processEntry_skip (Or.inr hs)]
          exact hs
        · rw [processEntry_add hl hs]
          simp
      · exact ih he'

lemma foldl_skip_all {normalize : String → String} {es : List Entry}
    {st : DedupState}
    (h : ∀ e ∈ es, entryLink normalize e = "" ∨ entryLink normalize e ∈ st.seen) :
    es.foldl (processEntry normalize) st = st := by
  induction es with
  | nil => rfl
  | cons e es ih =>
      have h1 : processEntry normalize st e = st :=
        processEntry_skip (h e (List.mem_cons_self e es))
      simp only [List.foldl_cons, h1]
      exact ih (fun e' he' => h e' (List.mem_cons_of_mem e he'))

/-- Invariant of the dedup accumulator: new URLs are seen, new detail keys
are new URLs, and the new-URL and accepted-batch counts agree. -/
def DedupInv (st : DedupState) : Prop :=
  st.newUrls ⊆ st.seen ∧ (∀ k ∈ dictKeys st.newDetails, k ∈ st.newUrls) ∧
    st.newUrls.length = st.allResults.length

lemma dedupInv_processEntry {normalize : String → String} {st : DedupState}
    {e : Entry} (h : DedupInv st) : DedupInv (processEntry normalize st e) := by
  by_cases hl : entryLink normalize e = ""
  · rwa [processEntry_skip (Or.inl hl)]
  · by_cases hs : entryLink normalize e ∈ st.seen
    · rwa [processEntry_skip (Or.inr hs)]
    · obtain ⟨h1, h2, h3⟩ := h
      rw [processEntry_add hl hs]
      have hnu : entryLink normalize e ∉ st.newUrls := fun hc => hs (h1 hc)
      refine ⟨?_, ?_, ?_⟩
      · intro x hx
        rcases mem_addToSet.mp hx with hx' | rfl
        · simp [h1 hx']
        · simp
      · intro k hk
        rcases mem_dictKeys_dictUpsert hk with hk' | rfl
        · exact mem_addToSet.mpr (Or.inl (h2 k hk'))
        · exact mem_addToSet.mpr (Or.inr rfl)
      · simp [addToSet, hnu, h3]

lemma dedupInv_foldl {normalize : String → String} {es : List Entry}
    {st : DedupState} (h : DedupInv st) :
    DedupInv (es.foldl (processEntry normalize) st) := by
  induction es generalizing st with
  | nil => exact h
  | cons e es ih => exact ih (dedupInv_processEntry h)

lemma mem_newUrls_foldl {normalize : String → String} {es : List Entry}
    {st : DedupState} {x : String}
    (h : x ∈ (es.foldl (processEntry normalize) st).newUrls) :
    x ∈ st.newUrls ∨ x ≠ "" := by
  induction es generalizing st with
  | nil => exact Or.inl h
  | cons e es ih =>
      rcases ih h with h' | h'
      · by_cases hl : entryLink normalize e = ""
        · rw [processEntry_skip (Or.inl hl)] at h'
          exact Or.inl h'
        · by_cases hs : entryLink normalize e ∈ st.seen
          · rw [processEntry_skip (Or.inr hs)] at h'
            exact Or.inl h'
          · rw [processEntry_add hl hs] at h'
            rcases mem_addToSet.mp h' with h'' | rfl
            · exact Or.inl h''
            · exact Or.inr hl
      · exact Or.inr h'

lemma mem_seen_foldl_src {normalize : String → String} {es : List Entry}
    {st : DedupState} {x : String}
    (h : x ∈ (es.foldl (processEntry normalize) st).seen) :
    x ∈ st.seen ∨ x ≠ "" := by
  induction es generalizing st with
  | nil => exact Or.inl h
  | cons e es ih =>
      rcases ih h with h' | h'
      · by_cases hl : entryLink normalize e = ""
        · rw [processEntry_skip (Or.inl hl)] at h'
          exact Or.inl h'
        · by_cases hs : entryLink normalize e ∈ st.seen
          · rw [processEntry_skip (Or.inr hs)] at h'
            exact Or.inl h'
          · rw [processEntry_add hl hs] at h'
            simp only [List.mem_append, List.mem_singleton] at h'
            rcases h' with h'' | rfl
            · exact Or.inl h''
            · exact Or.inr hl
      · exact Or.inr h'

lemma mem_allResults_foldl {normalize : String → String} {es : List Entry}
    {st : DedupState} {e' : Entry}
    (h : e' ∈ (es.foldl (processEntry normalize) st).allResults) :
    e' ∈ st.allResults ∨ entryLink normalize e' ≠ "" := by
  induction es generalizing st with
  | nil => exact Or.inl h
  | cons e es ih =>
      rcases ih h with h' | h'
      · by_cases hl : entryLink normalize e = ""
        · rw [processEntry_skip (Or.inl hl)] at h'
          exact Or.inl h'
        · by_cases hs : entryLink normalize e ∈ st.seen
          · rw [processEntry_skip (Or.inr hs)] at h'
            exact Or.inl h'
          · rw [processEntry_add hl hs] at h'
            simp only [List.mem_append, List.mem_singleton] at h'
            rcases h' with h'' | rfl
            · exact Or.inl h''
            · exact Or.inr hl
      · exact Or.inr h'

lemma mem_newDetailsKeys_foldl {normalize : String → String} {es : List Entry}
    {st : DedupState} {k : String}
    (h : k ∈ dictKeys (es.foldl (processEntry normalize) st).newDetails) :
    k ∈ dictKeys st.newDetails ∨ k ≠ "" := by
  induction es generalizing st with
  | nil => exact Or.inl h
  | cons e es ih =>
      rcases ih h with h' | h'
      · by_cases hl : entryLink normalize e = ""
        · rw [processEntry_skip (Or.inl hl)] at h'
          exact Or.inl h'
        · by_cases hs : entryLink normalize e ∈ st.seen
          · rw [processEntry_skip (Or.inr hs)] at h'
            exact Or.inl h'
          · rw [processEntry_add hl hs] at h'
            rcases mem_dictKeys_dictUpsert h' with h'' | rfl
            · exact Or.inl h''
            · exact Or.inr hl
      · exact Or.inr h'

/-- The entries contributed by one site of the loop: none when the site is
skipped (`if not site: continue`), and the empty list when discovery raises
(the caught exception of src/server.py lines 432-434). -/
def siteEntries (discover : String → List String → Option (List Entry))
    (keywords : List String) (site : String) : List Entry :=
  if site = "" then [] else (discover site keywords).getD []

/-- The flattened entry stream of the site loop. -/
def streamOf (discover : String → List String → Option (List Entry))
    (keywords : List String) (sites : List String) : List Entry :=
  (sites.map (siteEntries discover keywords)).flatten

lemma processSite_eq_foldl (normalize : String → String)
    (discover : String → List String → Option (List Entry))
    (keywords : List String) (st : DedupState) (site : String) :
    processSite normalize discover keywords st site =
      (siteEntries discover keywords site).foldl (processEntry normalize) st := by
  unfold processSite siteEntries
  split
  · rfl
  · rfl

lemma runDedup_eq_foldl (normalize : String → String)
    (discover : String → List String → Option (List Entry))
    (keywords : List String) (sites : List String) (st : DedupState) :
    runDedup normalize discover keywords sites st =
      (streamOf discover keywords sites).foldl (processEntry normalize) st := by
  induction sites generalizing st with
  | nil => rfl
  | cons s sites ih =>
      have h1 : runDedup normalize discover keywords (s :: sites) st
          = runDedup normalize discover keywords sites
              (processSite normalize discover keywords st s) := rfl
      rw [h1, ih, processSite_eq_foldl]
      simp only [streamOf, List.map_cons, List.flatten_cons, List.foldl_append]

lemma cycleDedup_eq_foldl (normalize : String → String)
    (discover : String → List String → Option (List Entry))
    (cfg : SourceConfig) (seen : List String) :
    cycleDedup normalize discover cfg seen =
      (streamOf discover (cycleKeywords cfg) (cycleSites normalize cfg)).foldl
        (processEntry normalize) ⟨toSet seen, [], [], []⟩ := by
  unfold cycleDedup
  exact runDedup_eq_foldl _ _ _ _ _

lemma cycleDedup_inv (normalize : String → String)
    (discover : String → List String → Option (List Entry))
    (cfg : SourceConfig) (seen : List String) :
    DedupInv (cycleDedup normalize discover cfg seen) := by
  rw [cycleDedup_eq_foldl]
  exact dedupInv_foldl ⟨by simp, by simp [dictKeys], rfl⟩

/-- The abort branch of `perform_watch_task` (src/server.py lines 409-414). -/
lemma perform_watch_task_config_none (normalize : String → String)
    (env : CycleEnv) (hc : env.config = none) :
    perform_watch_task normalize env =
      { memory := env.memory, saveCount := 0, newUrls := [], allResults := []
        reportText := "", emails := [], discoveredSites := []
        lockFileAfter := false } := by
  unfold perform_watch_task
  rw [hc]

/-- The no-new-items branch of `perform_watch_task`
(src/server.py lines 549-550). -/
lemma perform_watch_task_noSave (normalize : String → String) (env : CycleEnv)
    (cfg : SourceConfig) (hc : env.config = some cfg)
    (h : (cycleDedup normalize env.discover cfg env.memory.seen_urls).newUrls = []) :
    perform_watch_task normalize env =
      { memory := env.memory, saveCount := 0
        newUrls := (cycleDedup normalize env.discover cfg env.memory.seen_urls).newUrls
        allResults := (cycleDedup normalize env.discover cfg env.memory.seen_urls).allResults
        reportText := chooseReport env.llmReportText env.today
          (cycleDedup normalize env.discover cfg env.memory.seen_urls).allResults
        emails := []
        discoveredSites := (cycleSites normalize cfg).filter (fun s => s ≠ "")
        lockFileAfter := false } := by
  unfold perform_watch_task
  rw [hc]
  simp only [h, if_pos]

/-- The persist-and-notify branch of `perform_watch_task`
(src/server.py lines 522-548). -/
lemma perform_watch_task_save (normalize : String → String) (env : CycleEnv)
    (cfg : SourceConfig) (hc : env.config = some cfg)
    (h : (cycleDedup normalize env.discover cfg env.memory.seen_urls).newUrls ≠ []) :
    perform_watch_task normalize env =
      (let st := cycleDedup normalize env.discover cfg env.memory.seen_urls
       let reportText := chooseReport env.llmReportText env.today st.allResults
       let details' := dictUpdate env.memory.details st.newDetails
       { memory := ⟨st.seen, details',
           if reportText = "" then env.memory.reports
           else env.memory.reports
             ++ [⟨env.utcNow ++ "Z", sortStrings st.newUrls, reportText⟩]⟩
         saveCount := 1
         newUrls := st.newUrls
         allResults := st.allResults
         reportText := reportText
         emails := [("Rapport de veille - " ++ toString st.newUrls.length
             ++ " nouvelles actualités", convert_details_to_html details')]
         discoveredSites := (cycleSites normalize cfg).filter (fun s => s ≠ "")
         lockFileAfter := false }) := by
  unfold perform_watch_task
  rw [hc]
  simp only [h, if_neg]
  rfl

/-! ### Lemmas about the fallback report -/

lemma data_eq_nil_iff {s : String} : s.data = [] ↔ s = "" := by
  constructor
  · intro h
    cases s with
    | mk d =>
        have hd : d = [] := h
        subst hd
        rfl
  · intro h
    subst h
    rfl

lemma str_append_ne_left {a b : String} (ha : a ≠ "") : a ++ b ≠ "" := by
  intro h
  have hd := congrArg String.data h
  rw [String.data_append] at hd
  have h0 : ("" : String).data = [] := rfl
  rw [h0] at hd
  exact ha (data_eq_nil_iff.mp (List.append_eq_nil.mp hd).1)

lemma joinLines_ne_empty {x : String} {xs : List String} (hx : x ≠ "") :
    joinLines (x :: xs) ≠ "" := by
  cases xs with
  | nil => exact hx
  | cons y ys =>
      show x ++ "\n" ++ joinLines (y :: ys) ≠ ""
      exact str_append_ne_left (str_append_ne_left hx)

lemma fallbackReport_ne_empty (today : String) (results : List Entry) :
    fallbackReport today results ≠ "" := by
  unfold fallbackReport fallbackLines
  apply joinLines_ne_empty
  apply str_append_ne_left
  decide

lemma mem_joinLines_infix {s : String} {l : List String} (h : s ∈ l) :
    s.data <:+: (joinLines l).data := by
  induction l with
  | nil => cases h
  | cons x xs ih =>
      cases xs with
      | nil =>
          rcases List.mem_cons.mp h with rfl | h'
          · exact List.infix_refl _
          · cases h'
      | cons y ys =>
          rcases List.mem_cons.mp h with rfl | h'
          · show s.data <:+: ((s ++ "\n") ++ joinLines (y :: ys)).data
            rw [String.data_append, String.data_append, List.append_assoc]
            exact (List.prefix_append _ _).isInfix
          · have hinf := ih h'
            show s.data <:+: ((x ++ "\n") ++ joinLines (y :: ys)).data
            rw [String.data_append]
            exact hinf.trans (List.suffix_append _ _).isInfix

lemma mem_itemBody_itemsLines {e : Entry} {results : List Entry}
    (he : e ∈ results) :
    ∀ (i : Nat) {s : String}, s ∈ itemBody e → s ∈ itemsLines i results := by
  induction results with
  | nil => cases he
  | cons a res ih =>
      intro i s hs
      unfold itemsLines
      rcases List.mem_cons.mp he with rfl | he'
      · exact List.mem_cons_of_mem _ (List.mem_append_left _ hs)
      · exact List.mem_cons_of_mem _ (List.mem_append_right _ (ih he' (i + 1) hs))

lemma mem_fallbackLines_of_itemBody {e : Entry} {results : List Entry}
    {s : String} (he : e ∈ results) (hs : s ∈ itemBody e) (today : String) :
    s ∈ fallbackLines today results := by
  unfold fallbackLines
  exact List.mem_append_left _
    (List.mem_append_right _ (mem_itemBody_itemsLines he 1 hs))

lemma mem_fallbackLines_post {results : List Entry} {s : String}
    (today : String)
    (hs : s ∈ (["\nSYNTHÈSE GLOBALE", charRep '=' 30,
        "Ce rapport contient " ++ toString results.length
          ++ " actualités pertinentes relatives aux mots-clés suivis.",
        "Veuillez analyser les implications et recommandations pour chaque élément.",
        "\nRECOMMANDATIONS PRIORITAIRES", charRep '=' 30,
        "1. Examiner en détail les actualités signalées et valider leur pertinence.",
        "2. Partager les informations importantes avec les équipes concernées.",
        "3. Planifier une réunion de suivi pour discuter des actions à entreprendre."] :
        List String)) :
    s ∈ fallbackLines today results := by
  unfold fallbackLines
  exact List.mem_append_right _ hs

/-! ### Claim theorems -/

/-! ### Claim theorems -/

/-- Claim C2: re-running a cycle on the store the previous cycle left behind,
with the provider responses unchanged (same `discover`), accepts zero new
items (`newUrls` and the accepted batch are empty), never calls
`atomic_save_memory`, and leaves the persisted store exactly as the first
cycle left it. -/
theorem C2_dedup_idempotent (normalize : String → String) (env : CycleEnv) :
    (perform_watch_task normalize
      { env with memory := (perform_watch_task normalize env).memory }).newUrls = [] ∧
    (perform_watch_task normalize
      { env with memory := (perform_watch_task normalize env).memory }).allResults = [] ∧
    (perform_watch_task normalize
      { env with memory := (perform_watch_task normalize env).memory }).saveCount = 0 ∧
    (perform_watch_task normalize
      { env with memory := (perform_watch_task normalize env).memory }).memory =
      (perform_watch_task normalize env).memory := by
  have hd : ({ env with memory := (perform_watch_task normalize env).memory } :
      CycleEnv).discover = env.discover := rfl
  rcases Option.eq_none_or_eq_some env.config with hc | ⟨cfg, hc⟩
  · have hc2 : ({ env with memory := (perform_watch_task normalize env).memory } :
        CycleEnv).config = none := hc
    rw [perform_watch_task_config_none normalize _ hc2]
    exact ⟨rfl, rfl, rfl, rfl⟩
  · have hc2 : ({ env with memory := (perform_watch_task normalize env).memory } :
        CycleEnv).config = some cfg := hc
    by_cases h1 :
        (cycleDedup normalize env.discover cfg env.memory.seen_urls).newUrls = []
    · have e1 := perform_watch_task_noSave normalize env cfg hc h1
      have hseen : ({ env with memory := (perform_watch_task normalize env).memory } :
          CycleEnv).memory.seen_urls = env.memory.seen_urls := by
        rw [e1]
      have h1' : (cycleDedup normalize
          ({ env with memory := (perform_watch_task normalize env).memory } :
            CycleEnv).discover cfg
          ({ env with memory := (perform_watch_task normalize env).memory } :
            CycleEnv).memory.seen_urls).newUrls = [] := by
        rw [hd, hseen]
        exact h1
      rw [perform_watch_task_noSave normalize _ cfg hc2 h1']
      refine ⟨h1', ?_, rfl, rfl⟩
      show (cycleDedup normalize
          ({ env with memory := (perform_watch_task normalize env).memory } :
            CycleEnv).discover cfg
          ({ env with memory := (perform_watch_task normalize env).memory } :
            CycleEnv).memory.seen_urls).allResults = []
      rw [hd, hseen]
      obtain ⟨_, _, hlen⟩ :=
        cycleDedup_inv normalize env.discover cfg env.memory.seen_urls
      rw [h1] at hlen
      exact List.length_eq_zero.mp hlen.symm
    · have e1 := perform_watch_task_save normalize env cfg hc h1
      have hseen : ({ env with memory := (perform_watch_task normalize env).memory } :
          CycleEnv).memory.seen_urls =
          (cycleDedup normalize env.discover cfg env.memory.seen_urls).seen := by
        rw [e1]
      have hskip : ∀ e ∈ streamOf env.discover (cycleKeywords cfg)
          (cycleSites normalize cfg),
          entryLink normalize e = "" ∨ entryLink normalize e ∈
            (⟨toSet (cycleDedup normalize env.discover cfg
              env.memory.seen_urls).seen, [], [], []⟩ : DedupState).seen := by
        intro e he
        by_cases hl : entryLink normalize e = ""
        · exact Or.inl hl
        · right
          show entryLink normalize e ∈
            toSet (cycleDedup normalize env.discover cfg env.memory.seen_urls).seen
          rw [mem_toSet, cycleDedup_eq_foldl]
          exact mem_seen_foldl_of_mem he hl
      have hst2 : cycleDedup normalize env.discover cfg
          ((cycleDedup normalize env.discover cfg env.memory.seen_urls).seen) =
          ⟨toSet (cycleDedup normalize env.discover cfg
            env.memory.seen_urls).seen, [], [], []⟩ := by
        rw [cycleDedup_eq_foldl]
        exact foldl_skip_all hskip
      have h2 : (cycleDedup normalize
          ({ env with memory := (perform_watch_task normalize env).memory } :
            CycleEnv).discover cfg
          ({ env with memory := (perform_watch_task normalize env).memory } :
            CycleEnv).memory.seen_urls).newUrls = [] := by
        rw [hd, hseen, hst2]
      rw [perform_watch_task_noSave normalize _ cfg hc2 h2]
      refine ⟨h2, ?_, rfl, rfl⟩
      show (cycleDedup normalize
          ({ env with memory := (perform_watch_task normalize env).memory } :
            CycleEnv).discover cfg
          ({ env with memory := (perform_watch_task normalize env).memory } :
            CycleEnv).memory.seen_urls).allResults = []
      rw [hd, hseen, hst2]

/-- Claim C3: when the primary LLM report text is empty the cycle compiles
the manual fallback, and the fallback is total: for any batch whose items
carry a non-empty `Lien` it produces non-empty text whose first line is the
dated header, contains a section per item with every labelled field rendered
(a missing field rendering as its explicit French placeholder, never as the
empty string), contains each item's link as a substring, separates sections
with rule lines, and closes with a synthesis citing the item count and three
fixed recommendation lines. -/
theorem C3_fallback_report_total (today : String) (results : List Entry)
    (hne : results ≠ [])
    (hlink : ∀ e ∈ results, Entry.getD e "Lien" "" ≠ "") :
    fallbackReport today results ≠ "" ∧
    (fallbackLines today results).head? =
      some ("RAPPORT DE VEILLE STRATÉGIQUE - " ++ today) ∧
    chooseReport "" today results = fallbackReport today results ∧
    ("Ce rapport contient " ++ toString results.length
      ++ " actualités pertinentes relatives aux mots-clés suivis.")
      ∈ fallbackLines today results ∧
    "1. Examiner en détail les actualités signalées et valider leur pertinence."
      ∈ fallbackLines today results ∧
    "2. Partager les informations importantes avec les équipes concernées."
      ∈ fallbackLines today results ∧
    "3. Planifier une réunion de suivi pour discuter des actions à entreprendre."
      ∈ fallbackLines today results ∧
    (∀ e ∈ results,
      ("LIEN: " ++ Entry.getD e "Lien" "") ∈ fallbackLines today results ∧
      Entry.getD e "Lien" "" ≠ "" ∧
      (Entry.getD e "Lien" "").data <:+: (fallbackReport today results).data ∧
      ("\n" ++ charRep '-' 50 ++ "\n") ∈ fallbackLines today results ∧
      ("SOURCE: " ++ Entry.getD e "Source" "Non spécifiée")
        ∈ fallbackLines today results ∧
      ("DATE: " ++ Entry.getD e "Date de Publication" "Non spécifiée")
        ∈ fallbackLines today results ∧
      ("RÉSUMÉ: " ++ Entry.getD e "Contexte et Résumé de la publication"
          "Non disponible") ∈ fallbackLines today results ∧
      ("IMPLICATIONS POUR UM6P: " ++ Entry.getD e
          "Implications et Impacts sur UM6P" "Non analysées")
        ∈ fallbackLines today results ∧
      ("RECOMMANDATIONS: " ++ Entry.getD e
          "Recommandations Stratégiques pour UM6P" "Non disponibles")
        ∈ fallbackLines today results ∧
      (Entry.lookup e "Source" = none →
        Entry.getD e "Source" "Non spécifiée" = "Non spécifiée") ∧
      (Entry.lookup e "Date de Publication" = none →
        Entry.getD e "Date de Publication" "Non spécifiée" = "Non spécifiée") ∧
      (Entry.lookup e "Contexte et Résumé de la publication" = none →
        Entry.getD e "Contexte et Résumé de la publication" "Non disponible" =
          "Non disponible") ∧
      (Entry.lookup e "Implications et Impacts sur UM6P" = none →
        Entry.getD e "Implications et Impacts sur UM6P" "Non analysées" =
          "Non analysées") ∧
      (Entry.lookup e "Recommandations Stratégiques pour UM6P" = none →
        Entry.getD e "Recommandations Stratégiques pour UM6P"
          "Non disponibles" = "Non disponibles")) := by
  refine ⟨fallbackReport_ne_empty today results, rfl, ?_, ?_, ?_, ?_, ?_, ?_⟩
  · unfold chooseReport
    rw [if_neg hne]
    simp
  · exact mem_fallbackLines_post today (by simp)
  · exact mem_fallbackLines_post today (by simp)
  · exact mem_fallbackLines_post today (by simp)
  · exact mem_fallbackLines_post today (by simp)
  · intro e he
    have hlien : ("LIEN: " ++ Entry.getD e "Lien" "") ∈ itemBody e := by
      unfold itemBody
      simp
    refine ⟨mem_fallbackLines_of_itemBody he hlien today, hlink e he, ?_, ?_,
      ?_, ?_, ?_, ?_, ?_, ?_, ?_, ?_, ?_, ?_⟩
    · have hline : ("LIEN: " ++ Entry.getD e "Lien" "").data <:+:
          (fallbackReport today results).data :=
        mem_joinLines_infix (mem_fallbackLines_of_itemBody he hlien today)
      have hsuf : (Entry.getD e "Lien" "").data <:+
          ("LIEN: " ++ Entry.getD e "Lien" "").data := by
        rw [String.data_append]
        exact List.suffix_append _ _
      exact hsuf.isInfix.trans hline
    · exact mem_fallbackLines_of_itemBody he (by unfold itemBody; simp) today
    · exact mem_fallbackLines_of_itemBody he (by unfold itemBody; simp) today
    · exact mem_fallbackLines_of_itemBody he (by unfold itemBody; simp) today
    · exact mem_fallbackLines_of_itemBody he (by unfold itemBody; simp) today
    · exact mem_fallbackLines_of_itemBody he (by unfold itemBody; simp) today
    · exact mem_fallbackLines_of_itemBody he (by unfold itemBody; simp) today
    · intro h
      unfold Entry.getD
      rw [h]
      rfl
    · intro h
      unfold Entry.getD
      rw [h]
      rfl
    · intro h
      unfold Entry.getD
      rw [h]
      rfl
    · intro h
      unfold Entry.getD
      rw [h]
      rfl
    · intro h
      unfold Entry.getD
      rw [h]
      rfl

/-- Witness for C3: a batch of one item carrying only a `Lien` yields a
non-empty fallback report whose lines render every missing field with its
placeholder and include the link line. -/
theorem C3_fallback_report_total_witness :
    fallbackReport "02/02/2026" [[("Lien", "https://w.example/a")]] ≠ "" ∧
    ("LIEN: https://w.example/a")
      ∈ fallbackLines "02/02/2026" [[("Lien", "https://w.example/a")]] ∧
    ("SOURCE: Non spécifiée")
      ∈ fallbackLines "02/02/2026" [[("Lien", "https://w.example/a")]] := by
  have h := C3_fallback_report_total "02/02/2026"
    [[("Lien", "https://w.example/a")]] (by decide) (by decide)
  have he := h.2.2.2.2.2.2.2 [("Lien", "https://w.example/a")] (by decide)
  exact ⟨h.1, he.1, he.2.2.2.2.1⟩

lemma chooseReport_ne_empty {llm today : String} {results : List Entry}
    (h : results ≠ []) : chooseReport llm today results ≠ "" := by
  unfold chooseReport
  rw [if_neg h]
  by_cases hl : llm = ""
  · rw [if_pos hl]
    exact fallbackReport_ne_empty today results
  · rw [if_neg hl]
    exact hl

/-- A concrete cycle environment with one fresh discovered item and a
non-empty primary LLM report text. -/
def c4Env : CycleEnv :=
  { lockFileExists := false
    config := some ⟨some ["energie"], some ["https://a.example"]⟩
    memory := ⟨[], [], []⟩
    discover := fun s _ =>
      if s = "https://a.example" then
        some [[("Lien", "https://a.example/x?utm=1"), ("Source", "SrcA")]]
      else some []
    llmReportText := "Rapport LLM."
    today := "01/01/2026"
    utcNow := "2026-01-01T00:00:00" }

/-- Counterexample to C4 as stated: in a cycle with one new item the single
dispatched email body is not the compiled report text (the source sends
`convert_details_to_html(memory_details)`, src/server.py lines 541-545; the
path that would email the report is commented out at lines 478-484). -/
theorem C4_counterexample :
    (perform_watch_task normalize_url c4Env).emails.map Prod.snd ≠
      [(perform_watch_task normalize_url c4Env).reportText] := by
  decide

/-- Claim C4 (amended): a cycle with a non-empty `newItems` appends exactly
one ReportEntry (UTC timestamp, sorted new URLs, compiled report text),
saves the Memory Store exactly once, and dispatches exactly one notification
— whose body is the HTML rendering of the updated details map, not the
compiled report text. -/
theorem C4_persist_notify_amended (normalize : String → String)
    (env : CycleEnv)
    (h : (perform_watch_task normalize env).newUrls ≠ []) :
    (perform_watch_task normalize env).saveCount = 1 ∧
    (perform_watch_task normalize env).emails.length = 1 ∧
    (perform_watch_task normalize env).reportText ≠ "" ∧
    (perform_watch_task normalize env).memory.reports =
      env.memory.reports ++
        [⟨env.utcNow ++ "Z",
          sortStrings (perform_watch_task normalize env).newUrls,
          (perform_watch_task normalize env).reportText⟩] ∧
    (perform_watch_task normalize env).emails =
      [("Rapport de veille - " ++
          toString (perform_watch_task normalize env).newUrls.length ++
          " nouvelles actualités",
        convert_details_to_html
          (perform_watch_task normalize env).memory.details)] := by
  rcases Option.eq_none_or_eq_some env.config with hc | ⟨cfg, hc⟩
  · rw [perform_watch_task_config_none normalize env hc] at h
    exact absurd rfl h
  · by_cases h1 :
        (cycleDedup normalize env.discover cfg env.memory.seen_urls).newUrls = []
    · rw [perform_watch_task_noSave normalize env cfg hc h1] at h
      exact absurd h1 h
    · have hall : (cycleDedup normalize env.discover cfg
          env.memory.seen_urls).allResults ≠ [] := by
        obtain ⟨_, _, hlen⟩ :=
          cycleDedup_inv normalize env.discover cfg env.memory.seen_urls
        intro h0
        rw [h0] at hlen
        simp at hlen
        exact h1 hlen
      have hrep : chooseReport env.llmReportText env.today
          (cycleDedup normalize env.discover cfg
            env.memory.seen_urls).allResults ≠ "" :=
        chooseReport_ne_empty hall
      rw [perform_watch_task_save normalize env cfg hc h1]
      refine ⟨rfl, rfl, hrep, ?_, rfl⟩
      show (if chooseReport env.llmReportText env.today
            (cycleDedup normalize env.discover cfg
              env.memory.seen_urls).allResults = ""
          then env.memory.reports
          else env.memory.reports ++
            [⟨env.utcNow ++ "Z",
              sortStrings (cycleDedup normalize env.discover cfg
                env.memory.seen_urls).newUrls,
              chooseReport env.llmReportText env.today
                (cycleDedup normalize env.discover cfg
                  env.memory.seen_urls).allResults⟩]) = _
      rw [if_neg hrep]

/-- Witness for the amended C4 at a concrete environment. -/
theorem C4_persist_notify_amended_witness :
    (perform_watch_task normalize_url c4Env).saveCount = 1 ∧
    (perform_watch_task normalize_url c4Env).emails.length = 1 :=
  ⟨(C4_persist_notify_amended normalize_url c4Env (by decide)).1,
   (C4_persist_notify_amended normalize_url c4Env (by decide)).2.1⟩

/-- Claim C7: the Memory Store invariant — the key set of `details` is a
subset of `seen_urls` — is preserved by every cycle: if the loaded store
satisfies it, so does the store the cycle leaves behind (whether or not it
saves). -/
theorem C7_details_keys_subset_seen (normalize : String → String)
    (env : CycleEnv)
    (h : ∀ k ∈ dictKeys env.memory.details, k ∈ env.memory.seen_urls) :
    ∀ k ∈ dictKeys (perform_watch_task normalize env).memory.details,
      k ∈ (perform_watch_task normalize env).memory.seen_urls := by
  rcases Option.eq_none_or_eq_some env.config with hc | ⟨cfg, hc⟩
  · rw [perform_watch_task_config_none normalize env hc]
    exact h
  · by_cases h1 :
        (cycleDedup normalize env.discover cfg env.memory.seen_urls).newUrls = []
    · rw [perform_watch_task_noSave normalize env cfg hc h1]
      exact h
    · rw [perform_watch_task_save normalize env cfg hc h1]
      intro k hk
      have hk' : k ∈ dictKeys (dictUpdate env.memory.details
          (cycleDedup normalize env.discover cfg env.memory.seen_urls).newDetails) :=
        hk
      show k ∈ (cycleDedup normalize env.discover cfg env.memory.seen_urls).seen
      rcases mem_dictKeys_dictUpdate hk' with hkd | hkn
      · have h0 : k ∈ toSet env.memory.seen_urls := mem_toSet.mpr (h k hkd)
        rw [cycleDedup_eq_foldl]
        exact seen_subset_foldl h0
      · obtain ⟨hsub, hdet, _⟩ :=
          cycleDedup_inv normalize env.discover cfg env.memory.seen_urls
        exact hsub (hdet k hkn)

/-- A concrete cycle environment whose loaded store satisfies the
details-keys-subset-of-seen invariant and whose discovery adds one fresh
item. -/
def c7Env : CycleEnv :=
  { lockFileExists := false
    config := some ⟨some ["k"], some ["https://s.example"]⟩
    memory := ⟨["https://old.example/a"],
      [("https://old.example/a", [("Lien", "https://old.example/a")])], []⟩
    discover := fun s _ =>
      if s = "https://s.example" then some [[("Lien", "https://s.example/n")]]
      else some []
    llmReportText := "Rpt."
    today := "02/01/2026"
    utcNow := "2026-01-02T00:00:00" }

/-- Witness for C7: after a saving cycle both the pre-existing detail key and
the newly added one are in the persisted `seen_urls`. -/
theorem C7_details_keys_subset_seen_witness :
    "https://old.example/a" ∈
      (perform_watch_task normalize_url c7Env).memory.seen_urls ∧
    "https://s.example/n" ∈
      (perform_watch_task normalize_url c7Env).memory.seen_urls :=
  ⟨C7_details_keys_subset_seen normalize_url c7Env (by decide)
      "https://old.example/a" (by decide),
   C7_details_keys_subset_seen normalize_url c7Env (by decide)
      "https://s.example/n" (by decide)⟩

/-- Claim C10: an entry whose normalized `Lien` is empty (in particular one
with no `Lien` key, as long as the normalizer maps `""` to `""`) is skipped
entirely: the dedup step leaves the accumulator untouched, the empty string
never enters `new_urls`, every accepted item has a non-empty normalized link,
and the empty string is never added to `seen_urls` or to the `details`
keys. -/
theorem C10_empty_link_skipped (normalize : String → String) (env : CycleEnv)
    (st : DedupState) (e : Entry) :
    (entryLink normalize e = "" → processEntry normalize st e = st) ∧
    "" ∉ (perform_watch_task normalize env).newUrls ∧
    (∀ e' ∈ (perform_watch_task normalize env).allResults,
      entryLink normalize e' ≠ "") ∧
    ("" ∉ env.memory.seen_urls →
      "" ∉ (perform_watch_task normalize env).memory.seen_urls) ∧
    ("" ∉ dictKeys env.memory.details →
      "" ∉ dictKeys (perform_watch_task normalize env).memory.details) := by
  refine ⟨fun h => processEntry_skip (Or.inl h), ?_, ?_, ?_, ?_⟩
  · rcases Option.eq_none_or_eq_some env.config with hc | ⟨cfg, hc⟩
    · rw [perform_watch_task_config_none normalize env hc]
      simp
    · have hcore : "" ∉
          (cycleDedup normalize env.discover cfg env.memory.seen_urls).newUrls := by
        rw [cycleDedup_eq_foldl]
        intro hmem
        rcases mem_newUrls_foldl hmem with h' | h'
        · simp at h'
        · exact h' rfl
      by_cases h1 :
          (cycleDedup normalize env.discover cfg env.memory.seen_urls).newUrls = []
      · rw [perform_watch_task_noSave normalize env cfg hc h1]
        exact hcore
      · rw [perform_watch_task_save normalize env cfg hc h1]
        exact hcore
  · rcases Option.eq_none_or_eq_some env.config with hc | ⟨cfg, hc⟩
    · rw [perform_watch_task_config_none normalize env hc]
      simp
    · have hcore : ∀ e' ∈
          (cycleDedup normalize env.discover cfg env.memory.seen_urls).allResults,
          entryLink normalize e' ≠ "" := by
        rw [cycleDedup_eq_foldl]
        intro e' hmem
        rcases mem_allResults_foldl hmem with h' | h'
        · simp at h'
        · exact h'
      by_cases h1 :
          (cycleDedup normalize env.discover cfg env.memory.seen_urls).newUrls = []
      · rw [perform_watch_task_noSave normalize env cfg hc h1]
        exact hcore
      · rw [perform_watch_task_save normalize env cfg hc h1]
        exact hcore
  · intro h0
    rcases Option.eq_none_or_eq_some env.config with hc | ⟨cfg, hc⟩
    · rw [perform_watch_task_config_none normalize env hc]
      exact h0
    · by_cases h1 :
          (cycleDedup normalize env.discover cfg env.memory.seen_urls).newUrls = []
      · rw [perform_watch_task_noSave normalize env cfg hc h1]
        exact h0
      · rw [perform_watch_task_save normalize env cfg hc h1]
        show "" ∉ (cycleDedup normalize env.discover cfg env.memory.seen_urls).seen
        rw [cycleDedup_eq_foldl]
        intro hmem
        rcases mem_seen_foldl_src hmem with h' | h'
        · exact h0 (mem_toSet.mp h')
        · exact h' rfl
  · intro h0
    rcases Option.eq_none_or_eq_some env.config with hc | ⟨cfg, hc⟩
    · rw [perform_watch_task_config_none normalize env hc]
      exact h0
    · by_cases h1 :
          (cycleDedup normalize env.discover cfg env.memory.seen_urls).newUrls = []
      · rw [perform_watch_task_noSave normalize env cfg hc h1]
        exact h0
      · rw [perform_watch_task_save normalize env cfg hc h1]
        show "" ∉ dictKeys (dictUpdate env.memory.details
          (cycleDedup normalize env.discover cfg env.memory.seen_urls).newDetails)
        intro hmem
        rcases mem_dictKeys_dictUpdate hmem with h' | h'
        · exact h0 h'
        · have h'' : "" ∈ dictKeys
              ((streamOf env.discover (cycleKeywords cfg)
                (cycleSites normalize cfg)).foldl (processEntry normalize)
                ⟨toSet env.memory.seen_urls, [], [], []⟩).newDetails := by
            rw [← cycleDedup_eq_foldl]
            exact h'
          rcases mem_newDetailsKeys_foldl h'' with h3 | h3
          · simp [dictKeys] at h3
          · exact h3 rfl

/-- A concrete cycle environment whose discovery returns one entry with no
`Lien`, one with an empty `Lien`, and one with a fresh link. -/
def c10Env : CycleEnv :=
  { lockFileExists := false
    config := some ⟨some ["k"], some ["https://s10.example"]⟩
    memory := ⟨[], [], []⟩
    discover := fun s _ =>
      if s = "https://s10.example" then
        some [[("Source", "NoLien")], [("Lien", ""), ("Source", "EmptyLien")],
          [("Lien", "https://s10.example/ok")]]
      else some []
    llmReportText := "Rpt."
    today := "03/01/2026"
    utcNow := "2026-01-03T00:00:00" }

/-- Witness for C10: an entry with no `Lien` leaves the dedup state
untouched, and the cycle over `c10Env` admits no empty string into
`new_urls` or the persisted `seen_urls`. -/
theorem C10_empty_link_skipped_witness :
    processEntry normalize_url ⟨[], [], [], []⟩ [("Source", "S")] =
      ⟨[], [], [], []⟩ ∧
    "" ∉ (perform_watch_task normalize_url c10Env).newUrls ∧
    "" ∉ (perform_watch_task normalize_url c10Env).memory.seen_urls := by
  have h := C10_empty_link_skipped normalize_url c10Env ⟨[], [], [], []⟩
    [("Source", "S")]
  exact ⟨h.1 (by decide), h.2.1, h.2.2.2.1 (by decide)⟩

lemma runDedup_congr (normalize : String → String)
    {d1 d2 : String → List String → Option (List Entry)}
    (keywords : List String) (sites : List String) (st : DedupState)
    (h : ∀ s kw, (d1 s kw).getD [] = (d2 s kw).getD []) :
    runDedup normalize d1 keywords sites st =
      runDedup normalize d2 keywords sites st := by
  induction sites generalizing st with
  | nil => rfl
  | cons s sites ih =>
      have hp : processSite normalize d1 keywords st s =
          processSite normalize d2 keywords st s := by
        unfold processSite
        split
        · rfl
        · rw [h s keywords]
      show runDedup normalize d1 keywords sites
          (processSite normalize d1 keywords st s) = _
      rw [hp]
      exact ih _

/-- The discovery function with site `b`'s answer replaced by an explicit
empty result list — the comparison point for isolation of a raising site. -/
def discoverWithEmpty (discover : String → List String → Option (List Entry))
    (b : String) : String → List String → Option (List Entry) :=
  fun s kw => if s = b then some [] else discover s kw

/-- Claim C8: a discovery call that raises for one site is equivalent to that
site returning no results — the cycle behaves identically (so the items of
every other site still enter the same cycle's accumulators) — and the failing
site's loop iteration leaves the dedup state untouched while the loop
continues. -/
theorem C8_site_failure_isolated (normalize : String → String) (env : CycleEnv)
    (b : String) (hb : ∀ kw, env.discover b kw = none) :
    perform_watch_task normalize env =
      perform_watch_task normalize
        { env with discover := discoverWithEmpty env.discover b } ∧
    (∀ kw st, processSite normalize env.discover kw st b = st) := by
  constructor
  · have hgetD : ∀ s kw, (env.discover s kw).getD [] =
        (discoverWithEmpty env.discover b s kw).getD [] := by
      intro s kw
      unfold discoverWithEmpty
      by_cases hs : s = b
      · subst hs
        simp [hb kw]
      · simp [hs]
    have hcd : ∀ cfg,
        cycleDedup normalize
          ({ env with discover := discoverWithEmpty env.discover b } :
            CycleEnv).discover cfg
          ({ env with discover := discoverWithEmpty env.discover b } :
            CycleEnv).memory.seen_urls =
        cycleDedup normalize env.discover cfg env.memory.seen_urls := by
      intro cfg
      unfold cycleDedup
      exact (runDedup_congr normalize _ _ _ hgetD).symm
    rcases Option.eq_none_or_eq_some env.config with hc | ⟨cfg, hc⟩
    · have hc2 : ({ env with discover := discoverWithEmpty env.discover b } :
          CycleEnv).config = none := hc
      rw [perform_watch_task_config_none normalize env hc,
        perform_watch_task_config_none normalize _ hc2]
    · have hc2 : ({ env with discover := discoverWithEmpty env.discover b } :
          CycleEnv).config = some cfg := hc
      by_cases h1 :
          (cycleDedup normalize env.discover cfg env.memory.seen_urls).newUrls = []
      · have h1' : (cycleDedup normalize
            ({ env with discover := discoverWithEmpty env.discover b } :
              CycleEnv).discover cfg
            ({ env with discover := discoverWithEmpty env.discover b } :
              CycleEnv).memory.seen_urls).newUrls = [] := by
          rw [hcd cfg]
          exact h1
        rw [perform_watch_task_noSave normalize env cfg hc h1,
          perform_watch_task_noSave normalize _ cfg hc2 h1']
        rw [hcd cfg]
      · have h1' : (cycleDedup normalize
            ({ env with discover := discoverWithEmpty env.discover b } :
              CycleEnv).discover cfg
            ({ env with discover := discoverWithEmpty env.discover b } :
              CycleEnv).memory.seen_urls).newUrls ≠ [] := by
          rw [hcd cfg]
          exact h1
        rw [perform_watch_task_save normalize env cfg hc h1,
          perform_watch_task_save normalize _ cfg hc2 h1']
        rw [hcd cfg]
  · intro kw st
    unfold processSite
    by_cases hsb : b = ""
    · simp [hsb]
    · simp [hsb, hb kw]

/-- A concrete cycle environment watching three sites of which the middle
one's discovery call raises. -/
def c8Env : CycleEnv :=
  { lockFileExists := false
    config := some ⟨some ["k"],
      some ["https://a.example", "https://b.example", "https://c.example"]⟩
    memory := ⟨[], [], []⟩
    discover := fun s _ =>
      if s = "https://b.example" then none
      else if s = "https://a.example" then
        some [[("Lien", "https://a.example/1")]]
      else if s = "https://c.example" then
        some [[("Lien", "https://c.example/2")]]
      else some []
    llmReportText := "Rpt."
    today := "04/01/2026"
    utcNow := "2026-01-04T00:00:00" }

/-- Witness for C8: with site B raising, the cycle equals the cycle where B
returns no results, B's loop iteration is the identity on the dedup state,
and the other sites' items still enter `new_urls`. -/
theorem C8_site_failure_isolated_witness :
    (perform_watch_task normalize_url c8Env =
      perform_watch_task normalize_url
        { c8Env with
            discover := discoverWithEmpty c8Env.discover "https://b.example" }) ∧
    processSite normalize_url c8Env.discover ["k"] ⟨[], [], [], []⟩
      "https://b.example" = ⟨[], [], [], []⟩ ∧
    (perform_watch_task normalize_url c8Env).newUrls =
      ["https://a.example/1", "https://c.example/2"] :=
  ⟨(C8_site_failure_isolated normalize_url c8Env "https://b.example"
      (fun _ => rfl)).1,
   (C8_site_failure_isolated normalize_url c8Env "https://b.example"
      (fun _ => rfl)).2 ["k"] ⟨[], [], [], []⟩,
   by decide⟩

/-- A concrete cycle environment in which the lock file exists when the task
starts (a cycle already in progress) and discovery finds one fresh item. -/
def c1Env : CycleEnv :=
  { lockFileExists := true
    config := some ⟨some ["veille"], some ["https://site.example"]⟩
    memory := ⟨[], [], []⟩
    discover := fun s _ =>
      if s = "https://site.example" then
        some [[("Lien", "https://site.example/post")]]
      else some []
    llmReportText := "Rapport."
    today := "05/03/2026"
    utcNow := "2026-03-05T08:00:00" }

/-- Claim C1: `perform_watch_task` never consults the lock state — its result
is identical whether or not `LOCK_FILE` exists — and with the lock held it
still performs discovery, one Memory Store write and one notification instead
of aborting as a no-op. (The source's docstring announces a file lock and the
`finally` block releases one, but no code acquires or checks it.) -/
theorem C1_lock_never_checked :
    (∀ (normalize : String → String) (env : CycleEnv) (b : Bool),
      perform_watch_task normalize { env with lockFileExists := b } =
        perform_watch_task normalize env) ∧
    c1Env.lockFileExists = true ∧
    (perform_watch_task normalize_url c1Env).discoveredSites =
      ["https://site.example"] ∧
    (perform_watch_task normalize_url c1Env).saveCount = 1 ∧
    (perform_watch_task normalize_url c1Env).emails.length = 1 ∧
    (perform_watch_task normalize_url c1Env).newUrls =
      ["https://site.example/post"] ∧
    (perform_watch_task normalize_url c1Env).memory ≠ c1Env.memory := by
  refine ⟨?_, rfl, ?_, ?_, ?_, ?_, ?_⟩
  · intro normalize env b
    cases env
    rfl
  · decide
  · decide
  · decide
  · decide
  · decide

/-- Claim C5: when every provider attempt raises, `call_search` performs
exactly `max_retries` attempts, sleeps `initial_delay * 2 ^ attempt` seconds
after each failed attempt except the last, and returns the empty result
`⟨"", []⟩` without propagating any exception (the model is a total function,
so no exception can escape). -/
theorem C5_call_search_retry_bound (provider : Nat → Option ProviderResp)
    (maxRetries initialDelay : Nat)
    (h : ∀ i, i < maxRetries → provider i = none) :
    call_search provider maxRetries initialDelay =
      (⟨"", []⟩, maxRetries,
        (List.range (maxRetries - 1)).map (fun i => initialDelay * 2 ^ i)) := by
  have := call_search_go_all_fail provider initialDelay maxRetries 0
    (fun i _ h2 => h i (by omega))
  simpa [call_search] using this

/-- Witness for C5 at the source defaults `max_retries = 3`,
`initial_delay = 5`: three attempts, sleeps of 5 and 10 seconds, empty
result. -/
theorem C5_call_search_retry_bound_witness :
    call_search (fun _ => none) 3 5 = (⟨"", []⟩, 3, [5, 10]) :=
  (C5_call_search_retry_bound (fun _ => none) 3 5 (fun _ _ => rfl)).trans
    (by decide)

/-- Claim C9: `HTTPClient.get` never raises (the model is a total function)
and returns `none` whenever (a) the session raises — covering network
exceptions and retry-budget exhaustion —, (b) the final response carries a
non-retryable error status `>= 400`; moreover (c) a wire sequence of only
retryable statuses (429/500/502/503/504) exhausts the budget of 3 retries and
makes the session raise, and (d) so does a wire sequence of only connection
errors. -/
theorem C9_http_get_none_on_failure (attempts : Nat → Option HttpResp) :
    (session_get attempts = none → HTTPClient.get attempts = none) ∧
    (∀ r, session_get attempts = some r → 400 ≤ r.status →
      HTTPClient.get attempts = none) ∧
    ((∀ i r, attempts i = some r → r.status ∈ retryStatuses) →
      session_get attempts = none) ∧
    ((∀ i, attempts i = none) → session_get attempts = none) := by
  refine ⟨?_, ?_, ?_, ?_⟩
  · intro h
    simp [HTTPClient.get, h]
  · intro r h hr
    simp [HTTPClient.get, h, hr]
  · intro h
    exact session_get_go_all_retryable attempts h 3 0
  · intro h
    have : ∀ i r, attempts i = some r → r.status ∈ retryStatuses := by
      intro i r hi
      rw [h i] at hi
      cases hi
    exact session_get_go_all_retryable attempts this 3 0

/-- Witness for C9: a server answering 404 forever and a dead network both
yield `none`. -/
theorem C9_http_get_none_on_failure_witness :
    HTTPClient.get (fun _ => some ⟨404, "not found"⟩) = none ∧
    HTTPClient.get (fun _ => none) = none := by
  constructor
  · exact (C9_http_get_none_on_failure (fun _ => some ⟨404, "not found"⟩)).2.1
      ⟨404, "not found"⟩ rfl (by decide)
  · exact (C9_http_get_none_on_failure (fun _ => none)).1 rfl

/-- Claim C6: the keyword-discovery parsers of `watch_site` and
`perform_search` never raise (both models are total functions) and follow the
two-stage recovery: empty text yields `[]`; a direct parse producing a JSON
array is used as-is; otherwise the first regex-extracted array substring is
parsed; and when the extraction fails, or the re-parse fails or is not an
array, the result is `[]`. `loads` abstracts `json.loads`
(`none` = `JSONDecodeError`). -/
theorem C6_discovery_parse_tolerant (loads : String → Option PyJson) (n : Nat)
    (text : String) :
    (text = "" → watch_site_of_text loads text = [] ∧
      perform_search_of_text loads n text = []) ∧
    (∀ data, loads text = some (.arr data) → text ≠ "" →
      watch_site_of_text loads text = dictsOnly data ∧
      perform_search_of_text loads n text = parseArrItems n data) ∧
    ((∀ data, loads text ≠ some (.arr data)) → reSearchArr true text = none →
      watch_site_of_text loads text = []) ∧
    ((∀ data, loads text ≠ some (.arr data)) → reSearchArr false text = none →
      perform_search_of_text loads n text = []) ∧
    (∀ sub, (∀ data, loads text ≠ some (.arr data)) →
      reSearchArr true text = some sub →
      (∀ data, loads sub ≠ some (.arr data)) →
      watch_site_of_text loads text = []) ∧
    (∀ sub, (∀ data, loads text ≠ some (.arr data)) →
      reSearchArr false text = some sub →
      (∀ data, loads sub ≠ some (.arr data)) →
      perform_search_of_text loads n text = []) ∧
    (∀ sub data, (∀ d, loads text ≠ some (.arr d)) →
      reSearchArr true text = some sub → loads sub = some (.arr data) →
      watch_site_of_text loads text = dictsOnly data) ∧
    (∀ sub data, (∀ d, loads text ≠ some (.arr d)) →
      reSearchArr false text = some sub → loads sub = some (.arr data) →
      perform_search_of_text loads n text = parseArrItems n data) := by
  by_cases ht : text = ""
  · subst ht
    exact ⟨fun _ => ⟨rfl, rfl⟩, fun data _ habs => absurd rfl habs,
      fun _ _ => rfl, fun _ _ => rfl,
      fun sub _ hre _ => Option.noConfusion hre,
      fun sub _ hre _ => Option.noConfusion hre,
      fun sub data _ hre _ => Option.noConfusion hre,
      fun sub data _ hre _ => Option.noConfusion hre⟩
  · refine ⟨fun h => absurd h ht, ?_, ?_, ?_, ?_, ?_, ?_, ?_⟩
    · intro data hl _
      constructor
      · simp [watch_site_of_text, ht, hl, arrOrElse]
      · simp [perform_search_of_text, ht, hl, arrOrElse]
    · intro hno hre
      simp [watch_site_of_text, if_neg ht, arrOrElse_nonarr _ _ _ hno, hre]
    · intro hno hre
      simp [perform_search_of_text, if_neg ht, arrOrElse_nonarr _ _ _ hno, hre]
    · intro sub hno hre hno2
      simp [watch_site_of_text, if_neg ht, arrOrElse_nonarr _ _ _ hno, hre,
        arrOrElse_nonarr _ _ _ hno2]
    · intro sub hno hre hno2
      simp [perform_search_of_text, if_neg ht, arrOrElse_nonarr _ _ _ hno, hre,
        arrOrElse_nonarr _ _ _ hno2]
    · intro sub data hno hre hl2
      simp [watch_site_of_text, if_neg ht, arrOrElse_nonarr _ _ _ hno, hre, hl2,
        arrOrElse]
    · intro sub data hno hre hl2
      simp [perform_search_of_text, if_neg ht, arrOrElse_nonarr _ _ _ hno, hre,
        hl2, arrOrElse]

/-- Witness for C6: a provider answer that parses nowhere yields the empty
list from both parsers, and an answer with trailing noise is recovered by the
regex stage. -/
theorem C6_discovery_parse_tolerant_witness :
    watch_site_of_text (fun _ => none) "no json here" = [] ∧
    perform_search_of_text (fun _ => none) 5 "no json here" = [] := by
  constructor
  · exact (C6_discovery_parse_tolerant (fun _ => none) 5 "no json here").2.2.1
      (fun _ h => Option.noConfusion h) rfl
  · exact (C6_discovery_parse_tolerant (fun _ => none) 5 "no json here").2.2.2.1
      (fun _ h => Option.noConfusion h) rfl

end GoodNews
